import Mathlib

/-!
Shallow embedding of `src/order/args.py` (class `OrderArguments`).

The Python class keeps a mutable dict `self.order_request` and a list
`self.param_parsers` of closures; `parse_arguments(args)` runs each closure
in activation order against the argparse namespace `args`.  Each
`add_<module>()` method declares the module's command-line options and
appends the corresponding `parse_<module>` extractor.

Modelling choices, all taken from the source:
  * the argparse namespace is a finite map from attribute name to a value
    (`none` when the declared option was not supplied); reading an attribute
    that the namespace does not carry raises `AttributeError`, modelled by
    `getattr` returning `Except.error`;
  * `self.parser.error(msg)` prints `msg` and terminates the process
    (argparse raises `SystemExit`), so a failed build yields no request at
    all; it is modelled as `Except.error (PyErr.validationError msg)`;
  * `self.order_request[k] = v` is dict assignment: replace the value when
    the key exists, append otherwise (`setKey`);
  * `--gtd-time` is coerced to a `datetime` by the option-parsing
    collaborator; `strftime "%Y-%m-%dT%H:%M:%S.000000000Z"` zero-pads the
    two-digit fields, while the C library underneath CPython renders `%Y`
    as an unpadded decimal number, so years below 1000 come out shorter
    than four characters; `strftimeGtd` models both behaviours.
-/

/-- A `datetime.datetime` value as far as `strftime` on the GTD format reads
it (year, month, day, hour, minute, second). -/
structure PyDateTime where
  year : Nat
  month : Nat
  day : Nat
  hour : Nat
  minute : Nat
  second : Nat
  deriving DecidableEq

/-- A raw option value held by the argparse namespace: a plain string, or a
date-time (only `--gtd-time` is declared with the date-time coercion). -/
inductive RawVal where
  | str (s : String)
  | time (d : PyDateTime)
  deriving DecidableEq

/-- The two ways an extractor can fail at run time. `validationError` models
`self.parser.error(msg)` (argparse prints the message and exits, so nothing
is returned); `attributeError n` models Python's `AttributeError` on reading
attribute `n` of an object that does not have it. -/
inductive PyErr where
  | validationError (msg : String)
  | attributeError (name : String)
  deriving DecidableEq

/-- The argparse namespace: each declared option name is mapped to `some v`
when supplied and `none` when absent; names not in the list are attributes
the namespace does not carry. -/
abbrev Args := List (String × Option RawVal)

/-- First binding of an attribute name in the namespace. -/
def lookupAttr : Args → String → Option (Option RawVal)
  | [], _ => none
  | (n, v) :: rest, n' => if n = n' then some v else lookupAttr rest n'

/-- `args.<name>`: attribute read on the argparse namespace.  Yields the
stored value, or raises `AttributeError` when the attribute is absent. -/
def getattr (args : Args) (name : String) : Except PyErr (Option RawVal) :=
  match lookupAttr args name with
  | some v => .ok v
  | none => .error (.attributeError name)

/-- A value stored in `order_request`: a raw value written verbatim, or one
of the nested objects built from keyword arguments
(`v20.transaction.ClientExtensions`, `TakeProfitDetails`, `StopLossDetails`,
`TrailingStopLossDetails`).  Each nested object keeps exactly the keyword
arguments it was constructed with (absent kwargs stay unset / `none`). -/
inductive ReqVal where
  | val (v : RawVal)
  | clientExtensionsObj (id tag comment : Option RawVal)
  | takeProfitDetails (price : RawVal)
  | stopLossDetails (price : RawVal)
  | trailingStopLossDetails (distance : Option RawVal)
  deriving DecidableEq

/-- The accumulating `order_request` dict. -/
abbrev Request := List (String × ReqVal)

/-- Python dict assignment `req[k] = v`: replace the value when the key is
already present, append the pair otherwise. -/
def setKey : Request → String → ReqVal → Request
  | [], k, v => [(k, v)]
  | (k', v') :: rest, k, v =>
      if k' = k then (k', v) :: rest else (k', v') :: setKey rest k v

/-- Dict lookup on the request. -/
def lookupReq : Request → String → Option ReqVal
  | [], _ => none
  | (k', v) :: rest, k => if k' = k then some v else lookupReq rest k

/-- Digit character for `n < 10`. -/
def dch : Nat → Char
  | 0 => '0'
  | 1 => '1'
  | 2 => '2'
  | 3 => '3'
  | 4 => '4'
  | 5 => '5'
  | 6 => '6'
  | 7 => '7'
  | 8 => '8'
  | _ => '9'

/-- Two-digit zero-padded decimal field (`%m`, `%d`, `%H`, `%M`, `%S`). -/
def pad2 (n : Nat) : String := ⟨[dch (n / 10 % 10), dch (n % 10)]⟩

/-- `%Y` as CPython's strftime renders it via the C library: the year as an
unpadded decimal number, so years below 1000 print with fewer than four
characters.  Python `datetime` years range over 1..9999; the `% 10` in the
thousands digit merely totalizes the function beyond that range. -/
def yfmt (n : Nat) : String :=
  if n < 10 then ⟨[dch n]⟩
  else if n < 100 then ⟨[dch (n / 10), dch (n % 10)]⟩
  else if n < 1000 then ⟨[dch (n / 100), dch (n / 10 % 10), dch (n % 10)]⟩
  else ⟨[dch (n / 1000 % 10), dch (n / 100 % 10), dch (n / 10 % 10),
    dch (n % 10)]⟩

/-- `d.strftime("%Y-%m-%dT%H:%M:%S.000000000Z")`. -/
def strftimeGtd (d : PyDateTime) : String :=
  yfmt d.year ++ "-" ++ pad2 d.month ++ "-" ++ pad2 d.day ++ "T" ++
    pad2 d.hour ++ ":" ++ pad2 d.minute ++ ":" ++ pad2 d.second ++
    ".000000000Z"

/-- The message passed to `self.parser.error` in `parse_time_in_force`. -/
def gtdErrMsg : String :=
  "must set --gtd-time \"YYYY-MM-DD HH:MM:SS\" when --time-in-force=GTD"

/-- Lines 49-56: the first, shadowed definition of `parse_trade_id`.  When
the trade id is supplied it reads `args.trade.id[0]`; no `add_` method ever
declares an option named `trade`, so `args.trade` raises `AttributeError`
(and even if the namespace carried `trade`, a string or date-time value has
no attribute `id`, modelled by the trailing error). -/
def parse_trade_id_v1 (args : Args) (req : Request) : Except PyErr Request :=
  match getattr args "trade_id" with
  | .error e => .error e
  | .ok none => .ok req
  | .ok (some _) =>
      match getattr args "trade" with
      | .error e => .error e
      | .ok _ => .error (.attributeError "id")

/-- Lines 59-63: the second, active definition of `parse_trade_id` (in the
Python class body it silently replaces the one above).  Writes the supplied
value verbatim under `tradeID`. -/
def parse_trade_id (args : Args) (req : Request) : Except PyErr Request :=
  match getattr args "trade_id" with
  | .error e => .error e
  | .ok none => .ok req
  | .ok (some v) => .ok (setKey req "tradeID" (.val v))

/-- Lines 79-83: `parse_instrument`. -/
def parse_instrument (args : Args) (req : Request) : Except PyErr Request :=
  match getattr args "instrument" with
  | .error e => .error e
  | .ok none => .ok req
  | .ok (some v) => .ok (setKey req "instrument" (.val v))

/-- Lines 101-105: `parse_units`. -/
def parse_units (args : Args) (req : Request) : Except PyErr Request :=
  match getattr args "units" with
  | .error e => .error e
  | .ok none => .ok req
  | .ok (some v) => .ok (setKey req "units" (.val v))

/-- Lines 120-124: `parse_price`. -/
def parse_price (args : Args) (req : Request) : Except PyErr Request :=
  match getattr args "price" with
  | .error e => .error e
  | .ok none => .ok req
  | .ok (some v) => .ok (setKey req "price" (.val v))

/-- Lines 139-143: `parse_distance`. -/
def parse_distance (args : Args) (req : Request) : Except PyErr Request :=
  match getattr args "distance" with
  | .error e => .error e
  | .ok none => .ok req
  | .ok (some v) => .ok (setKey req "distance" (.val v))

/-- Lines 168-185: `parse_time_in_force`.  Writes `timeInForce` whenever the
option is supplied; when the value is exactly `GTD`, a missing `--gtd-time`
triggers `self.parser.error(...)`, otherwise the date-time is formatted and
written under `gtdTime`.  (`args.gtd_time.strftime` on a non-date-time value
would raise `AttributeError`; the declared `--gtd-time` option is always
date-time-coerced, so that branch is unreachable through argparse.) -/
def parse_time_in_force (args : Args) (req : Request) : Except PyErr Request :=
  match getattr args "time_in_force" with
  | .error e => .error e
  | .ok none => .ok req
  | .ok (some v) =>
      let req' := setKey req "timeInForce" (.val v)
      if v ≠ .str "GTD" then .ok req'
      else
        match getattr args "gtd_time" with
        | .error e => .error e
        | .ok none => .error (.validationError gtdErrMsg)
        | .ok (some (.time d)) =>
            .ok (setKey req' "gtdTime" (.val (.str (strftimeGtd d))))
        | .ok (some (.str _)) => .error (.attributeError "strftime")

/-- Lines 199-203: `parse_price_bound`. -/
def parse_price_bound (args : Args) (req : Request) : Except PyErr Request :=
  match getattr args "price_bound" with
  | .error e => .error e
  | .ok none => .ok req
  | .ok (some v) => .ok (setKey req "priceBound" (.val v))

/-- Lines 219-223: `parse_position_fill`. -/
def parse_position_fill (args : Args) (req : Request) : Except PyErr Request :=
  match getattr args "position_fill" with
  | .error e => .error e
  | .ok none => .ok req
  | .ok (some v) => .ok (setKey req "positionFill" (.val v))

/-- Lines 247-267: `parse_client_order_extensions`.  No-op when all three
options are absent; otherwise constructs `ClientExtensions` from exactly the
present subset and writes it under `clientExtensions`. -/
def parse_client_order_extensions (args : Args) (req : Request) :
    Except PyErr Request :=
  match getattr args "client_order_id" with
  | .error e => .error e
  | .ok i =>
      match getattr args "client_order_tag" with
      | .error e => .error e
      | .ok t =>
          match getattr args "client_order_comment" with
          | .error e => .error e
          | .ok c =>
              if i = none ∧ t = none ∧ c = none then .ok req
              else .ok (setKey req "clientExtensions"
                (.clientExtensionsObj i t c))

/-- Lines 297-317: `parse_client_trade_extensions`, same pattern under the
`tradeClientExtensions` key. -/
def parse_client_trade_extensions (args : Args) (req : Request) :
    Except PyErr Request :=
  match getattr args "client_trade_id" with
  | .error e => .error e
  | .ok i =>
      match getattr args "client_trade_tag" with
      | .error e => .error e
      | .ok t =>
          match getattr args "client_trade_comment" with
          | .error e => .error e
          | .ok c =>
              if i = none ∧ t = none ∧ c = none then .ok req
              else .ok (setKey req "tradeClientExtensions"
                (.clientExtensionsObj i t c))

/-- Lines 334-343: `parse_take_profit_on_fill`. -/
def parse_take_profit_on_fill (args : Args) (req : Request) :
    Except PyErr Request :=
  match getattr args "take_profit_price" with
  | .error e => .error e
  | .ok none => .ok req
  | .ok (some v) =>
      .ok (setKey req "takeProfitOnFill" (.takeProfitDetails v))

/-- Lines 360-369: `parse_stop_loss_on_fill`. -/
def parse_stop_loss_on_fill (args : Args) (req : Request) :
    Except PyErr Request :=
  match getattr args "stop_loss_price" with
  | .error e => .error e
  | .ok none => .ok req
  | .ok (some v) =>
      .ok (setKey req "stopLossOnFill" (.stopLossDetails v))

/-- Lines 386-397: `parse_trailing_stop_loss_on_fill`.  The guard reads
`args.trailing_stop_loss_distance` (the option `add_trailing_stop_loss_on_fill`
declares), but line 392 builds the kwargs from `args.stop_loss_distance` — an
attribute no `add_` method ever declares, so the read raises
`AttributeError` whenever the guard passes. -/
def parse_trailing_stop_loss_on_fill (args : Args) (req : Request) :
    Except PyErr Request :=
  match getattr args "trailing_stop_loss_distance" with
  | .error e => .error e
  | .ok none => .ok req
  | .ok (some _) =>
      match getattr args "stop_loss_distance" with
      | .error e => .error e
      | .ok dv =>
          .ok (setKey req "trailingStopLossOnFill"
            (.trailingStopLossDetails dv))

/-- The field modules of the option catalogue; activating a module appends
its extractor to `param_parsers`. -/
inductive FieldModule where
  | trade_id
  | instrument
  | units
  | price
  | distance
  | time_in_force
  | price_bound
  | position_fill
  | client_order_extensions
  | client_trade_extensions
  | take_profit_on_fill
  | stop_loss_on_fill
  | trailing_stop_loss_on_fill
  deriving DecidableEq

/-- The extractor each `add_<module>` method appends (for `trade_id`, the
class body leaves the second definition of `parse_trade_id` bound, so that
is the one the closure invokes). -/
def parseModule : FieldModule → Args → Request → Except PyErr Request
  | .trade_id => parse_trade_id
  | .instrument => parse_instrument
  | .units => parse_units
  | .price => parse_price
  | .distance => parse_distance
  | .time_in_force => parse_time_in_force
  | .price_bound => parse_price_bound
  | .position_fill => parse_position_fill
  | .client_order_extensions => parse_client_order_extensions
  | .client_trade_extensions => parse_client_trade_extensions
  | .take_profit_on_fill => parse_take_profit_on_fill
  | .stop_loss_on_fill => parse_stop_loss_on_fill
  | .trailing_stop_loss_on_fill => parse_trailing_stop_loss_on_fill

/-- The loop body of `parse_arguments`: run the activated extractors in
activation order, threading `order_request`; an uncaught error aborts the
remaining iterations. -/
def runExtract (mods : List FieldModule) (args : Args) (req : Request) :
    Except PyErr Request :=
  match mods with
  | [] => .ok req
  | m :: rest =>
      match parseModule m args req with
      | .error e => .error e
      | .ok req' => runExtract rest args req'

/-- Lines 25-31: `parse_arguments`, started from the fresh empty
`order_request` that `__init__` creates. -/
def parse_arguments (mods : List FieldModule) (args : Args) :
    Except PyErr Request :=
  runExtract mods args []

/-! ## Analysis layer

Each extractor either fails or performs a sequence of dict writes that is a
function of the raw input alone (no extractor reads `order_request`).
`moduleWrites` computes that sequence; `parseModule_eq_writes` proves the
extractors equal to replaying it. -/

/-- Replay a list of dict writes onto a request. -/
def setList (req : Request) (kvs : List (String × ReqVal)) : Request :=
  kvs.foldl (fun r p => setKey r p.1 p.2) req

/-- The value a write list leaves at key `k` (later writes win). -/
def lookupKVs : List (String × ReqVal) → String → Option ReqVal
  | [], _ => none
  | p :: rest, k =>
      match lookupKVs rest k with
      | some v => some v
      | none => if p.1 = k then some p.2 else none

/-- The dict writes a module's extractor performs on the given raw input
(or the error it raises).  This is the extractor with the request argument
factored out. -/
def moduleWrites : FieldModule → Args → Except PyErr (List (String × ReqVal))
  | .trade_id, args =>
      match getattr args "trade_id" with
      | .error e => .error e
      | .ok none => .ok []
      | .ok (some v) => .ok [("tradeID", .val v)]
  | .instrument, args =>
      match getattr args "instrument" with
      | .error e => .error e
      | .ok none => .ok []
      | .ok (some v) => .ok [("instrument", .val v)]
  | .units, args =>
      match getattr args "units" with
      | .error e => .error e
      | .ok none => .ok []
      | .ok (some v) => .ok [("units", .val v)]
  | .price, args =>
      match getattr args "price" with
      | .error e => .error e
      | .ok none => .ok []
      | .ok (some v) => .ok [("price", .val v)]
  | .distance, args =>
      match getattr args "distance" with
      | .error e => .error e
      | .ok none => .ok []
      | .ok (some v) => .ok [("distance", .val v)]
  | .time_in_force, args =>
      match getattr args "time_in_force" with
      | .error e => .error e
      | .ok none => .ok []
      | .ok (some v) =>
          if v ≠ .str "GTD" then .ok [("timeInForce", .val v)]
          else
            match getattr args "gtd_time" with
            | .error e => .error e
            | .ok none => .error (.validationError gtdErrMsg)
            | .ok (some (.time d)) =>
                .ok [("timeInForce", .val v),
                     ("gtdTime", .val (.str (strftimeGtd d)))]
            | .ok (some (.str _)) => .error (.attributeError "strftime")
  | .price_bound, args =>
      match getattr args "price_bound" with
      | .error e => .error e
      | .ok none => .ok []
      | .ok (some v) => .ok [("priceBound", .val v)]
  | .position_fill, args =>
      match getattr args "position_fill" with
      | .error e => .error e
      | .ok none => .ok []
      | .ok (some v) => .ok [("positionFill", .val v)]
  | .client_order_extensions, args =>
      match getattr args "client_order_id" with
      | .error e => .error e
      | .ok i =>
          match getattr args "client_order_tag" with
          | .error e => .error e
          | .ok t =>
              match getattr args "client_order_comment" with
              | .error e => .error e
              | .ok c =>
                  if i = none ∧ t = none ∧ c = none then .ok []
                  else .ok [("clientExtensions", .clientExtensionsObj i t c)]
  | .client_trade_extensions, args =>
      match getattr args "client_trade_id" with
      | .error e => .error e
      | .ok i =>
          match getattr args "client_trade_tag" with
          | .error e => .error e
          | .ok t =>
              match getattr args "client_trade_comment" with
              | .error e => .error e
              | .ok c =>
                  if i = none ∧ t = none ∧ c = none then .ok []
                  else .ok [("tradeClientExtensions",
                    .clientExtensionsObj i t c)]
  | .take_profit_on_fill, args =>
      match getattr args "take_profit_price" with
      | .error e => .error e
      | .ok none => .ok []
      | .ok (some v) => .ok [("takeProfitOnFill", .takeProfitDetails v)]
  | .stop_loss_on_fill, args =>
      match getattr args "stop_loss_price" with
      | .error e => .error e
      | .ok none => .ok []
      | .ok (some v) => .ok [("stopLossOnFill", .stopLossDetails v)]
  | .trailing_stop_loss_on_fill, args =>
      match getattr args "trailing_stop_loss_distance" with
      | .error e => .error e
      | .ok none => .ok []
      | .ok (some _) =>
          match getattr args "stop_loss_distance" with
          | .error e => .error e
          | .ok dv =>
              .ok [("trailingStopLossOnFill", .trailingStopLossDetails dv)]

/-- Each extractor is the replay of its write list: it fails exactly when
`moduleWrites` fails, and otherwise performs writes that do not depend on
the current request. -/
theorem parseModule_eq_writes (m : FieldModule) (args : Args) (req : Request) :
    parseModule m args req = Except.map (setList req) (moduleWrites m args) := by
  cases m <;>
    simp only [parseModule, moduleWrites, parse_trade_id, parse_instrument,
      parse_units, parse_price, parse_distance, parse_time_in_force,
      parse_price_bound, parse_position_fill, parse_client_order_extensions,
      parse_client_trade_extensions, parse_take_profit_on_fill,
      parse_stop_loss_on_fill, parse_trailing_stop_loss_on_fill] <;>
    (repeat' split) <;> simp_all [Except.map, setList, setKey]

theorem lookupReq_setKey (req : Request) (k k' : String) (v : ReqVal) :
    lookupReq (setKey req k' v) k =
      if k' = k then some v else lookupReq req k := by
  induction req with
  | nil => simp [setKey, lookupReq]
  | cons p rest ih =>
      obtain ⟨k₀, v₀⟩ := p
      by_cases h0 : k₀ = k' <;> by_cases h1 : k' = k <;>
        simp_all [setKey, lookupReq]

theorem lookupReq_setList (req : Request) (kvs : List (String × ReqVal))
    (k : String) :
    lookupReq (setList req kvs) k =
      match lookupKVs kvs k with
      | some v => some v
      | none => lookupReq req k := by
  induction kvs generalizing req with
  | nil => simp [setList, lookupKVs]
  | cons p rest ih =>
      obtain ⟨k₀, v₀⟩ := p
      show lookupReq (setList (setKey req k₀ v₀) rest) k = _
      rw [ih]
      rcases h : lookupKVs rest k with _ | w <;>
        by_cases hk : k₀ = k <;>
        simp [lookupKVs, h, hk, lookupReq_setKey]

/-- The value module `m` writes at key `k` on the given raw input (`none`
when it fails or does not write `k`). -/
def writeAt (m : FieldModule) (args : Args) (k : String) : Option ReqVal :=
  match moduleWrites m args with
  | .ok kvs => lookupKVs kvs k
  | .error _ => none

/-- The value the run of a module list leaves at key `k` on top of whatever
was there before (later modules win). -/
def runWrites : List FieldModule → Args → String → Option ReqVal
  | [], _, _ => none
  | m :: rest, args, k =>
      match runWrites rest args k with
      | some v => some v
      | none => writeAt m args k

theorem runExtract_ok_lookup (mods : List FieldModule) (args : Args)
    (req req' : Request) (h : runExtract mods args req = .ok req')
    (k : String) :
    lookupReq req' k =
      match runWrites mods args k with
      | some v => some v
      | none => lookupReq req k := by
  induction mods generalizing req with
  | nil =>
      simp only [runExtract] at h
      cases h
      simp [runWrites]
  | cons m rest ih =>
      simp only [runExtract, parseModule_eq_writes] at h
      rcases hw : moduleWrites m args with e | kvs
      · rw [hw] at h; simp [Except.map] at h
      · rw [hw] at h
        simp only [Except.map] at h
        rw [ih _ h, show runWrites (m :: rest) args k =
          match runWrites rest args k with
          | some v => some v
          | none => writeAt m args k from rfl]
        rcases runWrites rest args k with _ | w <;>
          simp [lookupReq_setList, writeAt, hw]

theorem runExtract_ok_iff (mods : List FieldModule) (args : Args)
    (req : Request) :
    (∃ req', runExtract mods args req = .ok req') ↔
      ∀ m ∈ mods, ∃ kvs, moduleWrites m args = .ok kvs := by
  induction mods generalizing req with
  | nil => simp [runExtract]
  | cons m rest ih =>
      simp only [runExtract, parseModule_eq_writes]
      rcases hw : moduleWrites m args with e | kvs
      · show (∃ req', (Except.error e : Except PyErr Request) = .ok req') ↔ _
        constructor
        · rintro ⟨req', h⟩
          cases h
        · intro h
          obtain ⟨kvs, hk⟩ := h m (by simp)
          rw [hw] at hk
          cases hk
      · show (∃ req', runExtract rest args (setList req kvs) = .ok req') ↔ _
        constructor
        · rintro ⟨req', h⟩
          intro m' hm'
          rcases List.mem_cons.mp hm' with rfl | hm'
          · exact ⟨kvs, hw⟩
          · exact ((ih _).mp ⟨req', h⟩) m' hm'
        · intro h
          exact (ih (setList req kvs)).mpr (fun m' hm' => h m' (by simp [hm']))

theorem runExtract_append (l₁ l₂ : List FieldModule) (args : Args)
    (req : Request) :
    runExtract (l₁ ++ l₂) args req =
      match runExtract l₁ args req with
      | .error e => .error e
      | .ok req' => runExtract l₂ args req' := by
  induction l₁ generalizing req with
  | nil => simp [runExtract]
  | cons m rest ih =>
      simp only [List.cons_append, runExtract]
      rcases parseModule m args req with e | req' <;> simp [ih]

/-- The request keys a module's extractor can write (its target keys). -/
def moduleKeys : FieldModule → List String
  | .trade_id => ["tradeID"]
  | .instrument => ["instrument"]
  | .units => ["units"]
  | .price => ["price"]
  | .distance => ["distance"]
  | .time_in_force => ["timeInForce", "gtdTime"]
  | .price_bound => ["priceBound"]
  | .position_fill => ["positionFill"]
  | .client_order_extensions => ["clientExtensions"]
  | .client_trade_extensions => ["tradeClientExtensions"]
  | .take_profit_on_fill => ["takeProfitOnFill"]
  | .stop_loss_on_fill => ["stopLossOnFill"]
  | .trailing_stop_loss_on_fill => ["trailingStopLossOnFill"]

/-- The full key catalogue of the output shape. -/
def allRequestKeys : List String :=
  ["tradeID", "instrument", "units", "price", "distance", "timeInForce",
   "gtdTime", "priceBound", "positionFill", "clientExtensions",
   "tradeClientExtensions", "takeProfitOnFill", "stopLossOnFill",
   "trailingStopLossOnFill"]

theorem moduleKeys_sub_all (m : FieldModule) (k : String)
    (h : k ∈ moduleKeys m) : k ∈ allRequestKeys := by
  cases m <;> simp_all [moduleKeys, allRequestKeys] <;> tauto

theorem writes_in_moduleKeys (m : FieldModule) (args : Args)
    (kvs : List (String × ReqVal)) (k : String)
    (hw : moduleWrites m args = .ok kvs) (hk : lookupKVs kvs k ≠ none) :
    k ∈ moduleKeys m := by
  cases m <;> simp only [moduleWrites] at hw <;>
    (repeat' split at hw) <;> cases hw <;>
    simp_all [lookupKVs, moduleKeys] <;>
    (repeat' split at hk) <;> simp_all

theorem moduleKeys_disjoint (m₁ m₂ : FieldModule) (k : String)
    (hne : m₁ ≠ m₂) (h₁ : k ∈ moduleKeys m₁) : k ∉ moduleKeys m₂ := by
  cases m₁ <;> cases m₂ <;> simp_all [moduleKeys]
  all_goals (rintro rfl; rcases h₁ with h₁ | h₁ <;> simp_all)

theorem writeAt_in_keys (m : FieldModule) (args : Args) (k : String)
    (h : writeAt m args k ≠ none) : k ∈ moduleKeys m := by
  unfold writeAt at h
  rcases hw : moduleWrites m args with e | kvs
  · rw [hw] at h; simp at h
  · rw [hw] at h
    exact writes_in_moduleKeys m args kvs k hw h

theorem runWrites_perm {mods mods' : List FieldModule}
    (h : mods.Perm mods') (args : Args) (k : String) :
    runWrites mods args k = runWrites mods' args k := by
  induction h with
  | nil => rfl
  | cons m h ih => simp only [runWrites, ih]
  | swap m₁ m₂ l =>
      simp only [runWrites]
      rcases runWrites l args k with _ | w
      · by_cases hmm : m₁ = m₂
        · subst hmm; rfl
        · rcases h₁ : writeAt m₁ args k with _ | v₁ <;>
            rcases h₂ : writeAt m₂ args k with _ | v₂ <;>
            simp_all
          exact absurd (writeAt_in_keys m₂ args k (by simp [h₂]))
            (moduleKeys_disjoint m₁ m₂ k hmm
              (writeAt_in_keys m₁ args k (by simp [h₁])))
      · rfl
  | trans h₁ h₂ ih₁ ih₂ => exact ih₁.trans ih₂

theorem runWrites_some (mods : List FieldModule) (args : Args) (k : String)
    (v : ReqVal) (h : runWrites mods args k = some v) :
    ∃ m ∈ mods, ∃ kvs, moduleWrites m args = .ok kvs ∧
      lookupKVs kvs k = some v := by
  induction mods with
  | nil => cases h
  | cons m rest ih =>
      simp only [runWrites] at h
      rcases hr : runWrites rest args k with _ | w
      · rw [hr] at h
        simp only [writeAt] at h
        rcases hw : moduleWrites m args with e | kvs
        · rw [hw] at h; cases h
        · rw [hw] at h
          exact ⟨m, by simp, kvs, hw, h⟩
      · rw [hr] at h
        cases h
        obtain ⟨m', hm', kvs, hw, hk⟩ := ih hr
        exact ⟨m', by simp [hm'], kvs, hw, hk⟩

theorem runWrites_mem_some (mods : List FieldModule) (args : Args)
    (k : String) (m : FieldModule) (hm : m ∈ mods)
    (kvs : List (String × ReqVal)) (hw : moduleWrites m args = .ok kvs)
    (hk : lookupKVs kvs k ≠ none) :
    runWrites mods args k ≠ none := by
  induction mods with
  | nil => cases hm
  | cons m₀ rest ih =>
      simp only [runWrites]
      rcases hr : runWrites rest args k with _ | w
      · rcases List.mem_cons.mp hm with rfl | hm'
        · simp only [writeAt, hw]
          simpa using hk
        · exact absurd hr (ih hm')
      · simp

theorem runExtract_mono (mods : List FieldModule) (args : Args)
    (r r' : Request) (h : runExtract mods args r = .ok r') (k : String)
    (hk : lookupReq r k ≠ none) : lookupReq r' k ≠ none := by
  rw [runExtract_ok_lookup mods args r r' h k]
  rcases runWrites mods args k with _ | v <;> simp_all

/-! ## The claims -/

/-- C1.  The claim says that apart from GTD-without-gtd-time, an input in
which some other module's raw input is absent never makes `build` raise.
On the code this fails: with the units and trailing-stop-loss modules
activated, units absent and time-in-force nowhere near GTD, build still
raises `AttributeError("stop_loss_distance")`, because line 392 of
`parse_trailing_stop_loss_on_fill` reads `args.stop_loss_distance`, an
option no `add_` method declares. -/
theorem build_raises_despite_absent_units :
    parse_arguments
        [FieldModule.units, FieldModule.trailing_stop_loss_on_fill]
        [("units", none),
         ("trailing_stop_loss_distance", some (.str "0.05"))] =
      .error (.attributeError "stop_loss_distance") := rfl

/-- C3.  The claim says a supplied trailing-stop-loss-distance yields a
`trailingStopLossOnFill` attachment carrying that distance; the code
instead raises `AttributeError("stop_loss_distance")` on every such input
(line 392 reads `args.stop_loss_distance` instead of
`args.trailing_stop_loss_distance`). -/
theorem trailing_stop_loss_raises_attribute_error :
    parse_arguments [FieldModule.trailing_stop_loss_on_fill]
        [("trailing_stop_loss_distance", some (.str "0.05"))] =
      .error (.attributeError "stop_loss_distance") := rfl

/-- C2.  If the time-in-force module signals its validation failure
(time-in-force `GTD` with gtd-time absent), building stops and the failed
build carries nothing but the error: whatever the earlier modules had
written (`r₀`) and whatever modules follow, the result is the bare
`ValidationError`, so no partial request is returned. -/
theorem build_gtd_failure_discards (pre post : List FieldModule)
    (args : Args) (r₀ : Request)
    (hpre : runExtract pre args [] = .ok r₀)
    (htif : getattr args "time_in_force" = .ok (some (.str "GTD")))
    (hgtd : getattr args "gtd_time" = .ok none) :
    parse_arguments (pre ++ FieldModule.time_in_force :: post) args =
      .error (.validationError gtdErrMsg) := by
  unfold parse_arguments
  rw [runExtract_append, hpre]
  show runExtract (FieldModule.time_in_force :: post) args r₀ = _
  simp [runExtract, parseModule, parse_time_in_force, htif, hgtd]

theorem build_gtd_failure_discards_witness :
    parse_arguments
        [FieldModule.units, FieldModule.time_in_force, FieldModule.price]
        [("units", some (.str "100")),
         ("time_in_force", some (.str "GTD")),
         ("gtd_time", none), ("price", some (.str "1.1"))] =
      .error (.validationError gtdErrMsg) :=
  build_gtd_failure_discards [FieldModule.units] [FieldModule.price]
    [("units", some (.str "100")),
     ("time_in_force", some (.str "GTD")),
     ("gtd_time", none), ("price", some (.str "1.1"))]
    [("units", ReqVal.val (.str "100"))] rfl rfl rfl

/-- C5.  The active trade-id extractor (the second `parse_trade_id`
definition, the one `parseModule` dispatches to) writes every supplied
value verbatim under `tradeID` — also values starting with `@` — and never
touches `clientTradeID`; the shadowed first definition would instead blow
up on `args.trade`, so its `@`-prefix behaviour never runs. -/
theorem trade_id_active_extractor_verbatim (args : Args) (req : Request)
    (s : String)
    (hid : getattr args "trade_id" = .ok (some (.str s)))
    (htr : getattr args "trade" = .error (.attributeError "trade")) :
    parseModule FieldModule.trade_id args req =
        .ok (setKey req "tradeID" (.val (.str s))) ∧
      lookupReq (setKey req "tradeID" (.val (.str s))) "clientTradeID" =
        lookupReq req "clientTradeID" ∧
      parseModule FieldModule.trade_id args req = parse_trade_id args req ∧
      parse_trade_id_v1 args req = .error (.attributeError "trade") := by
  refine ⟨?_, ?_, rfl, ?_⟩
  · simp [parseModule, parse_trade_id, hid]
  · rw [lookupReq_setKey]
    simp
  · simp [parse_trade_id_v1, hid, htr]

theorem trade_id_active_extractor_verbatim_witness :
    parseModule FieldModule.trade_id
        [("trade_id", some (.str "@T1"))] [] =
        .ok (setKey [] "tradeID" (.val (.str "@T1"))) ∧
      lookupReq (setKey [] "tradeID" (.val (.str "@T1"))) "clientTradeID" =
        lookupReq [] "clientTradeID" ∧
      parseModule FieldModule.trade_id [("trade_id", some (.str "@T1"))] [] =
        parse_trade_id [("trade_id", some (.str "@T1"))] [] ∧
      parse_trade_id_v1 [("trade_id", some (.str "@T1"))] [] =
        .error (.attributeError "trade") :=
  trade_id_active_extractor_verbatim
    [("trade_id", some (.str "@T1"))] [] "@T1" rfl rfl

/-- C9.  When gtd-time is supplied but time-in-force is absent or different
from `GTD`, a successful build never carries a `gtdTime` key: the supplied
gtd-time value is silently ignored. -/
theorem gtd_time_silently_ignored (mods : List FieldModule) (args : Args)
    (req : Request) (v : RawVal)
    (hok : parse_arguments mods args = .ok req)
    (hgtd : getattr args "gtd_time" = .ok (some v))
    (htif : getattr args "time_in_force" = .ok none ∨
      ∃ w, getattr args "time_in_force" = .ok (some w) ∧ w ≠ .str "GTD") :
    lookupReq req "gtdTime" = none := by
  have h := runExtract_ok_lookup mods args [] req hok "gtdTime"
  rcases hr : runWrites mods args "gtdTime" with _ | w
  · rw [hr] at h
    simpa [lookupReq] using h
  · exfalso
    obtain ⟨m, hm, kvs, hw, hk⟩ := runWrites_some mods args "gtdTime" w hr
    have hkey : "gtdTime" ∈ moduleKeys m :=
      writes_in_moduleKeys m args kvs "gtdTime" hw (by simp [hk])
    have hm_tif : m = FieldModule.time_in_force := by
      cases m <;> simp_all [moduleKeys]
    subst hm_tif
    rcases htif with h0 | ⟨w', hw', hne⟩
    · simp only [moduleWrites, h0] at hw
      cases hw
      cases hk
    · simp only [moduleWrites, hw'] at hw
      rw [if_pos hne] at hw
      cases hw
      simp [lookupKVs] at hk

theorem gtd_time_silently_ignored_witness :
    lookupReq [("timeInForce", ReqVal.val (.str "GTC"))] "gtdTime" = none :=
  gtd_time_silently_ignored [FieldModule.time_in_force]
    [("time_in_force", some (.str "GTC")),
     ("gtd_time", some (.time ⟨2021, 6, 1, 12, 0, 0⟩))]
    [("timeInForce", ReqVal.val (.str "GTC"))]
    (.time ⟨2021, 6, 1, 12, 0, 0⟩) rfl rfl
    (Or.inr ⟨.str "GTC", rfl, by decide⟩)

/-- C10.  Extractor steps never delete request keys: every key present
before a successful extractor step (and hence before any successful run of
`parse_arguments`' loop) is still present afterwards, so the key set grows
monotonically over the run. -/
theorem request_keys_monotone (m : FieldModule) (mods : List FieldModule)
    (args : Args) (r r₁ r₂ : Request) (k : String) :
    (parseModule m args r = .ok r₁ → lookupReq r k ≠ none →
      lookupReq r₁ k ≠ none) ∧
    (runExtract mods args r = .ok r₂ → lookupReq r k ≠ none →
      lookupReq r₂ k ≠ none) :=
  ⟨fun h hk => runExtract_mono [m] args r r₁ (by simp [runExtract, h]) k hk,
   fun h hk => runExtract_mono mods args r r₂ h k hk⟩

theorem request_keys_monotone_witness :
    lookupReq [("price", ReqVal.val (.str "1.5")),
      ("units", ReqVal.val (.str "2"))] "price" ≠ none :=
  (request_keys_monotone FieldModule.units [FieldModule.units]
    [("units", some (.str "2"))]
    [("price", ReqVal.val (.str "1.5"))]
    [("price", ReqVal.val (.str "1.5")), ("units", ReqVal.val (.str "2"))]
    [("price", ReqVal.val (.str "1.5")), ("units", ReqVal.val (.str "2"))]
    "price").2 rfl (by decide)

/-- Checks the fixed nanosecond-precision UTC shape
`YYYY-MM-DDTHH:MM:SS.000000000Z`: thirty characters, digits in the date and
time positions, the literal separators and the literal `.000000000Z` tail
elsewhere. -/
def gtdPattern (s : String) : Bool :=
  match s.data with
  | [y1, y2, y3, y4, '-', mo1, mo2, '-', d1, d2, 'T', h1, h2, ':',
     mi1, mi2, ':', s1, s2, '.', '0', '0', '0', '0', '0', '0', '0', '0',
     '0', 'Z'] =>
      y1.isDigit && y2.isDigit && y3.isDigit && y4.isDigit &&
      mo1.isDigit && mo2.isDigit && d1.isDigit && d2.isDigit &&
      h1.isDigit && h2.isDigit && mi1.isDigit && mi2.isDigit &&
      s1.isDigit && s2.isDigit
  | _ => false

theorem dch_isDigit (k : Nat) : (dch k).isDigit = true := by
  unfold dch
  split <;> decide

theorem yfmt_fourDigits (n : Nat) (h : 1000 ≤ n) :
    yfmt n = ⟨[dch (n / 1000 % 10), dch (n / 100 % 10),
      dch (n / 10 % 10), dch (n % 10)]⟩ := by
  unfold yfmt
  rw [if_neg (by omega), if_neg (by omega), if_neg (by omega)]

theorem gtdPattern_mk_eq
    (y1 y2 y3 y4 mo1 mo2 d1 d2 h1 h2 mi1 mi2 s1 s2 : Nat) :
    gtdPattern (⟨[dch y1, dch y2, dch y3, dch y4]⟩ ++ "-" ++
        ⟨[dch mo1, dch mo2]⟩ ++ "-" ++ ⟨[dch d1, dch d2]⟩ ++ "T" ++
        ⟨[dch h1, dch h2]⟩ ++ ":" ++ ⟨[dch mi1, dch mi2]⟩ ++ ":" ++
        ⟨[dch s1, dch s2]⟩ ++ ".000000000Z") =
      ((dch y1).isDigit && (dch y2).isDigit && (dch y3).isDigit &&
       (dch y4).isDigit && (dch mo1).isDigit && (dch mo2).isDigit &&
       (dch d1).isDigit && (dch d2).isDigit && (dch h1).isDigit &&
       (dch h2).isDigit && (dch mi1).isDigit && (dch mi2).isDigit &&
       (dch s1).isDigit && (dch s2).isDigit) := rfl

theorem gtdPattern_mk
    (y1 y2 y3 y4 mo1 mo2 d1 d2 h1 h2 mi1 mi2 s1 s2 : Nat) :
    gtdPattern (⟨[dch y1, dch y2, dch y3, dch y4]⟩ ++ "-" ++
        ⟨[dch mo1, dch mo2]⟩ ++ "-" ++ ⟨[dch d1, dch d2]⟩ ++ "T" ++
        ⟨[dch h1, dch h2]⟩ ++ ":" ++ ⟨[dch mi1, dch mi2]⟩ ++ ":" ++
        ⟨[dch s1, dch s2]⟩ ++ ".000000000Z") = true := by
  rw [gtdPattern_mk_eq]
  simp [dch_isDigit]

theorem gtdPattern_strftimeGtd (d : PyDateTime) (h : 1000 ≤ d.year) :
    gtdPattern (strftimeGtd d) = true := by
  unfold strftimeGtd
  rw [yfmt_fourDigits d.year h]
  exact gtdPattern_mk (d.year / 1000 % 10) (d.year / 100 % 10)
    (d.year / 10 % 10) (d.year % 10) (d.month / 10 % 10) (d.month % 10)
    (d.day / 10 % 10) (d.day % 10) (d.hour / 10 % 10) (d.hour % 10)
    (d.minute / 10 % 10) (d.minute % 10) (d.second / 10 % 10)
    (d.second % 10)

/-- C4, counterexample.  The claim quantifies over every raw input with
time-in-force = `GTD` and gtd-time present, but (i) when the
trailing-stop-loss module is also activated and its distance supplied, the
line-392 typo aborts the build with `AttributeError` instead of success,
and (ii) a build that does succeed stores, for years below 1000, a string
such as `5-01-02T03:04:05.000000000Z` (the C library renders `%Y` without
zero padding), which does not match `YYYY-MM-DDTHH:MM:SS.000000000Z`. -/
theorem build_gtd_success_counterexample :
    parse_arguments
        [FieldModule.time_in_force, FieldModule.trailing_stop_loss_on_fill]
        [("time_in_force", some (.str "GTD")),
         ("gtd_time", some (.time ⟨2022, 1, 2, 3, 4, 5⟩)),
         ("trailing_stop_loss_distance", some (.str "0.05"))] =
      .error (.attributeError "stop_loss_distance") ∧
    parse_arguments [FieldModule.time_in_force]
        [("time_in_force", some (.str "GTD")),
         ("gtd_time", some (.time ⟨5, 1, 2, 3, 4, 5⟩))] =
      .ok [("timeInForce", .val (.str "GTD")),
           ("gtdTime", .val (.str "5-01-02T03:04:05.000000000Z"))] ∧
    gtdPattern "5-01-02T03:04:05.000000000Z" = false :=
  ⟨rfl, rfl, rfl⟩

/-- C4, amended.  With time-in-force = `GTD` and a gtd-time supplied, and
every other activated module's extraction succeeding on the same raw input
(the counterexample's trailing-stop-loss bug otherwise aborts the build),
build succeeds and stores under `gtdTime` the supplied date-time formatted
by `strftime("%Y-%m-%dT%H:%M:%S.000000000Z")`; the stored string matches
the `YYYY-MM-DDTHH:MM:SS.000000000Z` pattern whenever the year has four
digits, i.e. on the Python `datetime` range 1000 ≤ year ≤ 9999 (below
1000 the C library renders `%Y` shorter, as the counterexample shows). -/
theorem build_gtd_success (pre post : List FieldModule) (args : Args)
    (d : PyDateTime) (r₀ : Request)
    (hpre : runExtract pre args [] = .ok r₀)
    (hpost : ∀ m ∈ post, ∃ kvs, moduleWrites m args = .ok kvs)
    (htif : getattr args "time_in_force" = .ok (some (.str "GTD")))
    (hgtd : getattr args "gtd_time" = .ok (some (.time d)))
    (hy : 1000 ≤ d.year) (hy9 : d.year ≤ 9999) :
    ∃ req, parse_arguments (pre ++ FieldModule.time_in_force :: post) args =
        .ok req ∧
      lookupReq req "gtdTime" = some (.val (.str (strftimeGtd d))) ∧
      gtdPattern (strftimeGtd d) = true := by
  have step : parseModule FieldModule.time_in_force args r₀ =
      .ok (setKey (setKey r₀ "timeInForce" (.val (.str "GTD")))
        "gtdTime" (.val (.str (strftimeGtd d)))) := by
    simp [parseModule, parse_time_in_force, htif, hgtd]
  obtain ⟨req, hreq⟩ :=
    (runExtract_ok_iff post args
      (setKey (setKey r₀ "timeInForce" (.val (.str "GTD")))
        "gtdTime" (.val (.str (strftimeGtd d))))).mpr hpost
  refine ⟨req, ?_, ?_, gtdPattern_strftimeGtd d hy⟩
  · unfold parse_arguments
    rw [runExtract_append, hpre]
    show runExtract (FieldModule.time_in_force :: post) args r₀ = .ok req
    simp only [runExtract, step]
    exact hreq
  · have h := runExtract_ok_lookup post args _ req hreq "gtdTime"
    rcases hr : runWrites post args "gtdTime" with _ | w
    · rw [hr] at h
      rw [h, lookupReq_setKey]
      simp
    · rw [hr] at h
      rw [h]
      obtain ⟨m, hm, kvs, hw, hk⟩ :=
        runWrites_some post args "gtdTime" w hr
      have hkey : "gtdTime" ∈ moduleKeys m :=
        writes_in_moduleKeys m args kvs "gtdTime" hw (by simp [hk])
      have hmt : m = FieldModule.time_in_force := by
        cases m <;> simp_all [moduleKeys]
      subst hmt
      simp only [moduleWrites, htif] at hw
      rw [if_neg (by simp)] at hw
      rw [hgtd] at hw
      cases hw
      simp_all [lookupKVs]

theorem build_gtd_success_witness :
    ∃ req, parse_arguments [FieldModule.time_in_force]
        [("time_in_force", some (.str "GTD")),
         ("gtd_time", some (.time ⟨2022, 1, 2, 3, 4, 5⟩))] =
        .ok req ∧
      lookupReq req "gtdTime" =
        some (.val (.str (strftimeGtd ⟨2022, 1, 2, 3, 4, 5⟩))) ∧
      gtdPattern (strftimeGtd ⟨2022, 1, 2, 3, 4, 5⟩) = true :=
  build_gtd_success [] []
    [("time_in_force", some (.str "GTD")),
     ("gtd_time", some (.time ⟨2022, 1, 2, 3, 4, 5⟩))]
    ⟨2022, 1, 2, 3, 4, 5⟩ [] rfl (by simp) rfl rfl (by decide) (by decide)

/-- "Same final Request" for two builds: both fail, or both succeed with
extensionally equal request mappings (the spec fixes that insertion order in
the Request is irrelevant). -/
def buildEquiv : Except PyErr Request → Except PyErr Request → Prop
  | .error _, .error _ => True
  | .ok r₁, .ok r₂ => ∀ k, lookupReq r₁ k = lookupReq r₂ k
  | _, _ => False

/-- C8.  Activating the same modules in a different order and building from
the same raw input yields the same final Request: each module's writes are
determined by the raw input alone and target its own keys, so the
accumulated mapping is permutation-invariant (and one order fails exactly
when the other does). -/
theorem build_order_independent (mods mods' : List FieldModule)
    (args : Args) (h : mods.Perm mods') :
    buildEquiv (parse_arguments mods args) (parse_arguments mods' args) := by
  rcases h₁ : parse_arguments mods args with e₁ | r₁ <;>
    rcases h₂ : parse_arguments mods' args with e₂ | r₂
  · trivial
  · exfalso
    have hall := (runExtract_ok_iff mods' args []).mp ⟨r₂, h₂⟩
    obtain ⟨req', hh⟩ := (runExtract_ok_iff mods args []).mpr
      (fun m hm => hall m (h.mem_iff.mp hm))
    rw [show runExtract mods args [] = parse_arguments mods args from rfl,
      h₁] at hh
    cases hh
  · exfalso
    have hall := (runExtract_ok_iff mods args []).mp ⟨r₁, h₁⟩
    obtain ⟨req', hh⟩ := (runExtract_ok_iff mods' args []).mpr
      (fun m hm => hall m (h.mem_iff.mpr hm))
    rw [show runExtract mods' args [] = parse_arguments mods' args from rfl,
      h₂] at hh
    cases hh
  · intro k
    have l₁ := runExtract_ok_lookup mods args [] r₁ h₁ k
    have l₂ := runExtract_ok_lookup mods' args [] r₂ h₂ k
    rw [l₁, l₂, runWrites_perm h args k]

theorem build_order_independent_witness :
    buildEquiv
      (parse_arguments [FieldModule.units, FieldModule.price]
        [("units", some (.str "100")), ("price", some (.str "1.25"))])
      (parse_arguments [FieldModule.price, FieldModule.units]
        [("units", some (.str "100")), ("price", some (.str "1.25"))]) :=
  build_order_independent [FieldModule.units, FieldModule.price]
    [FieldModule.price, FieldModule.units]
    [("units", some (.str "100")), ("price", some (.str "1.25"))]
    (List.Perm.swap FieldModule.price FieldModule.units [])

/-- C7.  In a successful build: when all three client-order inputs are
absent no `clientExtensions` key exists; when at least one is present and
the module is activated, `clientExtensions` holds a Client Extensions
object carrying exactly the supplied subset of id/tag/comment; the same
pattern holds for the client-trade inputs under `tradeClientExtensions`. -/
theorem client_extensions_exact_subset (mods : List FieldModule)
    (args : Args) (req : Request) (i t c i' t' c' : Option RawVal)
    (hok : parse_arguments mods args = .ok req)
    (hi : getattr args "client_order_id" = .ok i)
    (ht : getattr args "client_order_tag" = .ok t)
    (hc : getattr args "client_order_comment" = .ok c)
    (hi' : getattr args "client_trade_id" = .ok i')
    (ht' : getattr args "client_trade_tag" = .ok t')
    (hc' : getattr args "client_trade_comment" = .ok c') :
    ((i = none ∧ t = none ∧ c = none) →
      lookupReq req "clientExtensions" = none) ∧
    (¬(i = none ∧ t = none ∧ c = none) →
      FieldModule.client_order_extensions ∈ mods →
      lookupReq req "clientExtensions" =
        some (.clientExtensionsObj i t c)) ∧
    ((i' = none ∧ t' = none ∧ c' = none) →
      lookupReq req "tradeClientExtensions" = none) ∧
    (¬(i' = none ∧ t' = none ∧ c' = none) →
      FieldModule.client_trade_extensions ∈ mods →
      lookupReq req "tradeClientExtensions" =
        some (.clientExtensionsObj i' t' c')) := by
  have hlk := fun k => runExtract_ok_lookup mods args [] req hok k
  refine ⟨?_, ?_, ?_, ?_⟩
  · intro habs
    rw [hlk "clientExtensions"]
    rcases hr : runWrites mods args "clientExtensions" with _ | w
    · simp [lookupReq]
    · exfalso
      obtain ⟨m, hm, kvs, hw, hk⟩ :=
        runWrites_some mods args "clientExtensions" w hr
      have hkey : "clientExtensions" ∈ moduleKeys m :=
        writes_in_moduleKeys m args kvs "clientExtensions" hw (by simp [hk])
      have hmc : m = FieldModule.client_order_extensions := by
        cases m <;> simp_all [moduleKeys]
      subst hmc
      simp only [moduleWrites, hi, ht, hc] at hw
      rw [if_pos habs] at hw
      cases hw
      cases hk
  · intro hpres hmem
    rw [hlk "clientExtensions"]
    have hw : moduleWrites FieldModule.client_order_extensions args =
        .ok [("clientExtensions", .clientExtensionsObj i t c)] := by
      simp only [moduleWrites, hi, ht, hc]
      rw [if_neg hpres]
    rcases hr : runWrites mods args "clientExtensions" with _ | w
    · exact absurd hr (runWrites_mem_some mods args "clientExtensions"
        FieldModule.client_order_extensions hmem _ hw (by simp [lookupKVs]))
    · obtain ⟨m, hm, kvs, hw', hk⟩ :=
        runWrites_some mods args "clientExtensions" w hr
      have hkey : "clientExtensions" ∈ moduleKeys m :=
        writes_in_moduleKeys m args kvs "clientExtensions" hw' (by simp [hk])
      have hmc : m = FieldModule.client_order_extensions := by
        cases m <;> simp_all [moduleKeys]
      subst hmc
      rw [hw] at hw'
      cases hw'
      simp [lookupKVs] at hk
      rw [← hk]
  · intro habs
    rw [hlk "tradeClientExtensions"]
    rcases hr : runWrites mods args "tradeClientExtensions" with _ | w
    · simp [lookupReq]
    · exfalso
      obtain ⟨m, hm, kvs, hw, hk⟩ :=
        runWrites_some mods args "tradeClientExtensions" w hr
      have hkey : "tradeClientExtensions" ∈ moduleKeys m :=
        writes_in_moduleKeys m args kvs "tradeClientExtensions" hw
          (by simp [hk])
      have hmc : m = FieldModule.client_trade_extensions := by
        cases m <;> simp_all [moduleKeys]
      subst hmc
      simp only [moduleWrites, hi', ht', hc'] at hw
      rw [if_pos habs] at hw
      cases hw
      cases hk
  · intro hpres hmem
    rw [hlk "tradeClientExtensions"]
    have hw : moduleWrites FieldModule.client_trade_extensions args =
        .ok [("tradeClientExtensions", .clientExtensionsObj i' t' c')] := by
      simp only [moduleWrites, hi', ht', hc']
      rw [if_neg hpres]
    rcases hr : runWrites mods args "tradeClientExtensions" with _ | w
    · exact absurd hr (runWrites_mem_some mods args "tradeClientExtensions"
        FieldModule.client_trade_extensions hmem _ hw (by simp [lookupKVs]))
    · obtain ⟨m, hm, kvs, hw', hk⟩ :=
        runWrites_some mods args "tradeClientExtensions" w hr
      have hkey : "tradeClientExtensions" ∈ moduleKeys m :=
        writes_in_moduleKeys m args kvs "tradeClientExtensions" hw'
          (by simp [hk])
      have hmc : m = FieldModule.client_trade_extensions := by
        cases m <;> simp_all [moduleKeys]
      subst hmc
      rw [hw] at hw'
      cases hw'
      simp [lookupKVs] at hk
      rw [← hk]

theorem client_extensions_exact_subset_witness :
    lookupReq [("clientExtensions",
        ReqVal.clientExtensionsObj (some (.str "abc")) none none)]
      "clientExtensions" =
      some (.clientExtensionsObj (some (.str "abc")) none none) ∧
    lookupReq [("clientExtensions",
        ReqVal.clientExtensionsObj (some (.str "abc")) none none)]
      "tradeClientExtensions" = none :=
  ⟨(client_extensions_exact_subset
      [FieldModule.client_order_extensions,
       FieldModule.client_trade_extensions]
      [("client_order_id", some (.str "abc")), ("client_order_tag", none),
       ("client_order_comment", none), ("client_trade_id", none),
       ("client_trade_tag", none), ("client_trade_comment", none)]
      [("clientExtensions",
        ReqVal.clientExtensionsObj (some (.str "abc")) none none)]
      (some (.str "abc")) none none none none none
      rfl rfl rfl rfl rfl rfl rfl).2.1 (by simp) (by simp),
   (client_extensions_exact_subset
      [FieldModule.client_order_extensions,
       FieldModule.client_trade_extensions]
      [("client_order_id", some (.str "abc")), ("client_order_tag", none),
       ("client_order_comment", none), ("client_trade_id", none),
       ("client_trade_tag", none), ("client_trade_comment", none)]
      [("clientExtensions",
        ReqVal.clientExtensionsObj (some (.str "abc")) none none)]
      (some (.str "abc")) none none none none none
      rfl rfl rfl rfl rfl rfl rfl).2.2.1 (by simp)⟩

/-- Module `m`, run alone on this raw input from an empty request, succeeds
and produces field `k`: the claim's "raw input supplied and passed the
module's validation" for the field keyed `k`. -/
def extractWrites (m : FieldModule) (args : Args) (k : String) : Prop :=
  ∃ r', parseModule m args [] = .ok r' ∧ lookupReq r' k ≠ none

theorem writes_clientExt_nonempty (m : FieldModule) (args : Args)
    (kvs : List (String × ReqVal)) (k : String) (i t c : Option RawVal)
    (hw : moduleWrites m args = .ok kvs)
    (hk : lookupKVs kvs k = some (.clientExtensionsObj i t c)) :
    ¬(i = none ∧ t = none ∧ c = none) := by
  cases m <;> simp only [moduleWrites] at hw <;>
    (repeat' split at hw) <;> cases hw <;>
    simp_all [lookupKVs] <;>
    (repeat' split at hk) <;> simp_all

/-- C6.  In a successful build, a key is present in the Request exactly
when some activated module's extractor, on this raw input, succeeds and
produces that field; every present key comes from the fixed catalogue of
fourteen target keys; and no Client Extensions object in the Request is
empty (absent inputs yield no placeholder values). -/
theorem request_keys_characterized (mods : List FieldModule) (args : Args)
    (req : Request) (hok : parse_arguments mods args = .ok req) :
    (∀ k, lookupReq req k ≠ none → k ∈ allRequestKeys) ∧
    (∀ k, lookupReq req k ≠ none ↔ ∃ m ∈ mods, extractWrites m args k) ∧
    (∀ k i t c, lookupReq req k = some (.clientExtensionsObj i t c) →
      ¬(i = none ∧ t = none ∧ c = none)) := by
  have hlk := fun k => runExtract_ok_lookup mods args [] req hok k
  refine ⟨?_, ?_, ?_⟩
  · intro k hne
    rw [hlk k] at hne
    rcases hr : runWrites mods args k with _ | w
    · rw [hr] at hne
      simp [lookupReq] at hne
    · obtain ⟨m, hm, kvs, hw, hk⟩ := runWrites_some mods args k w hr
      exact moduleKeys_sub_all m k
        (writes_in_moduleKeys m args kvs k hw (by simp [hk]))
  · intro k
    constructor
    · intro hne
      rw [hlk k] at hne
      rcases hr : runWrites mods args k with _ | w
      · rw [hr] at hne
        simp [lookupReq] at hne
      · obtain ⟨m, hm, kvs, hw, hk⟩ := runWrites_some mods args k w hr
        refine ⟨m, hm, setList [] kvs, ?_, ?_⟩
        · rw [parseModule_eq_writes, hw]
          rfl
        · rw [lookupReq_setList]
          simp [hk]
    · rintro ⟨m, hm, r', hpm, hlr⟩
      rw [parseModule_eq_writes] at hpm
      rcases hw : moduleWrites m args with e | kvs
      · rw [hw] at hpm
        cases hpm
      · rw [hw] at hpm
        injection hpm with hpm'
        rw [← hpm', lookupReq_setList] at hlr
        have hkvs : lookupKVs kvs k ≠ none := by
          rcases hq : lookupKVs kvs k with _ | v
          · rw [hq] at hlr
            simp [lookupReq] at hlr
          · simp
        rw [hlk k]
        have hnn := runWrites_mem_some mods args k m hm kvs hw hkvs
        rcases hq : runWrites mods args k with _ | w
        · exact absurd hq hnn
        · simp
  · intro k i t c heq
    rw [hlk k] at heq
    rcases hr : runWrites mods args k with _ | w
    · rw [hr] at heq
      simp [lookupReq] at heq
    · rw [hr] at heq
      injection heq with heq'
      obtain ⟨m, hm, kvs, hw, hk⟩ := runWrites_some mods args k w hr
      exact writes_clientExt_nonempty m args kvs k i t c hw (heq' ▸ hk)

theorem request_keys_characterized_witness :
    (∀ k, lookupReq [("units", ReqVal.val (.str "100"))] k ≠ none →
      k ∈ allRequestKeys) ∧
    (∀ k, lookupReq [("units", ReqVal.val (.str "100"))] k ≠ none ↔
      ∃ m ∈ [FieldModule.units, FieldModule.take_profit_on_fill],
        extractWrites m
          [("units", some (.str "100")), ("take_profit_price", none)] k) ∧
    (∀ k i t c, lookupReq [("units", ReqVal.val (.str "100"))] k =
        some (.clientExtensionsObj i t c) →
      ¬(i = none ∧ t = none ∧ c = none)) :=
  request_keys_characterized
    [FieldModule.units, FieldModule.take_profit_on_fill]
    [("units", some (.str "100")), ("take_profit_price", none)]
    [("units", ReqVal.val (.str "100"))] rfl
